import Mathlib

/-!
Shallow embedding of `src/backend/src/generate_embeddings/main.py`
(the document-indexing Lambda of the serverless dashboard chatbot).

The handler's observable behaviour is modelled as a pure function from an
environment (the bucket listing, the event records, and oracles for the
fallible external calls: S3 download, embedding/index construction, S3
upload) to a `Result` holding the Python return value (or the propagated
exception) together with an ordered log of the side effects performed and
the final local `/tmp` scratch filesystem.
-/

namespace ServerlessChatbot

/-- Exceptions that the external collaborators (S3, Bedrock, PyPDF, DynamoDB)
can raise into the handler. -/
inductive Err
  | rateLimited
  | modelUnavailable
  | unparsablePdf
  | storeUnavailable
  | notFound
  | indexOutOfRange
deriving DecidableEq

/-- One record of the SQS event; `json.loads(record["body"])` yields the
fields `documentid` and `user` (main.py lines 56-58). -/
structure EventRecord where
  documentid : String
  user : String
deriving DecidableEq

/-- The serialized index artifact pair produced by
`index_from_loader.vectorstore.save_local` (main.py line 96): FAISS
geometry bytes and pickle metadata bytes. -/
structure Artifact where
  faiss : String
  pkl : String
deriving DecidableEq

/-- Ordered observable side effects of one handler run. -/
inductive Ev
  | listBucket
  | parseBody (r : EventRecord)
  | setStatus (user doc status : String)
  | download (key tmpPath : String)
  | loadAndBuild (contents : List String)
  | upload (s3key bytes : String)
deriving DecidableEq

/-- The handler's Python return value: the early-return string of line 54,
or the implicit `None` at the end of the function. -/
inductive Ret
  | msg (s : String)
  | done
deriving DecidableEq

/-- Environment of one invocation: bucket listing (the `Contents` keys of
`list_objects_v2`, `[]` meaning `Contents` is absent), event records, and
oracles for each fallible external call. -/
structure Env where
  listing : List String
  records : List EventRecord
  download : String → Except Err String
  buildIndex : List String → Except Err Artifact
  uploadErr : String → Option Err

instance {ε α : Type} [DecidableEq ε] [DecidableEq α] : DecidableEq (Except ε α) :=
  fun a b =>
  match a, b with
  | .error a, .error b =>
    if h : a = b then .isTrue (congrArg Except.error h)
    else .isFalse (fun hc => h (Except.error.inj hc))
  | .ok a, .ok b =>
    if h : a = b then .isTrue (congrArg Except.ok h)
    else .isFalse (fun hc => h (Except.ok.inj hc))
  | .error _, .ok _ => .isFalse (fun hc => Except.noConfusion hc)
  | .ok _, .error _ => .isFalse (fun hc => Except.noConfusion hc)

/-- Outcome of a run: Python return value or propagated exception, the
ordered effect log, and the final `/tmp` contents (latest write first). -/
structure Result where
  ret : Except Err Ret
  log : List Ev
  tmp : List (String × String)
deriving DecidableEq

/-- State threaded through the download loop of main.py lines 63-75. -/
structure LoopState where
  tmp : List (String × String)
  loaderPaths : List String
  log : List Ev

/-- `key.lower().endswith(".pdf")` (main.py line 66), over the char list. -/
def isPdfKey (key : String) : Bool :=
  List.isSuffixOf (String.toList ".pdf") (key.toList.map Char.toLower)

/-- `key.split("/")[-1]` (main.py line 68): the chars after the last slash. -/
def basename (key : String) : String :=
  String.mk ((key.toList.reverse.takeWhile (fun c => c != '/')).reverse)

/-- Assoc lookup where the most recent (leftmost) binding wins; models both
the `/tmp` filesystem and a DynamoDB item's attribute map. -/
def lookupStr : List (String × String) → String → Option String
  | [], _ => Option.none
  | (p, c) :: rest, q => if p = q then some c else lookupStr rest q

/-- The download loop of main.py lines 63-75: for each listed key ending in
`.pdf`, `s3.download_file` stages the bytes at `/tmp/<basename>` (overwriting
any earlier file of the same name) and a `PyPDFLoader` pointing at that local
path is appended. A raised download error aborts the loop. -/
def downloadAll (dl : String → Except Err String) :
    List String → LoopState → LoopState × Option Err
  | [], st => (st, Option.none)
  | key :: rest, st =>
    if isPdfKey key then
      match dl key with
      | Except.error e => (st, some e)
      | Except.ok bytes =>
        downloadAll dl rest
          { tmp := ("/tmp/" ++ basename key, bytes) :: st.tmp,
            loaderPaths := st.loaderPaths ++ ["/tmp/" ++ basename key],
            log := st.log ++ [Ev.download key ("/tmp/" ++ basename key)] }
    else
      downloadAll dl rest st

/-- Main.py lines 63-104: the part of the handler after the PROCESSING status
write. Downloads all PDFs, then `index_creator.from_loaders(loaders)` parses
each loader's local file as it stands at that moment and embeds/builds the
index (line 94), then `save_local("/tmp")` and the two sequential
`s3.upload_file` calls (lines 96-101), then the READY status write. -/
def runRest (dl : String → Except Err String)
    (bi : List String → Except Err Artifact)
    (ue : String → Option Err)
    (listing : List String) (user_id document_id : String)
    (log1 : List Ev) : Result :=
  match downloadAll dl listing ⟨[], [], log1⟩ with
  | (st, some e) => { ret := Except.error e, log := st.log, tmp := st.tmp }
  | (st, Option.none) =>
    let contents := st.loaderPaths.map (fun p => (lookupStr st.tmp p).getD "")
    match bi contents with
    | Except.error e =>
        { ret := Except.error e, log := st.log ++ [Ev.loadAndBuild contents],
          tmp := st.tmp }
    | Except.ok art =>
      let log2 := st.log ++ [Ev.loadAndBuild contents]
      let tmp2 := ("/tmp/index.pkl", art.pkl) :: ("/tmp/index.faiss", art.faiss) :: st.tmp
      match ue (user_id ++ "/index.faiss") with
      | some e => { ret := Except.error e, log := log2, tmp := tmp2 }
      | Option.none =>
        let log3 := log2 ++ [Ev.upload (user_id ++ "/index.faiss") art.faiss]
        match ue (user_id ++ "/index.pkl") with
        | some e => { ret := Except.error e, log := log3, tmp := tmp2 }
        | Option.none =>
          { ret := Except.ok Ret.done,
            log := log3 ++ [Ev.upload (user_id ++ "/index.pkl") art.pkl,
                            Ev.setStatus user_id document_id "READY"],
            tmp := tmp2 }

/-- `lambda_handler` (main.py lines 50-104). Lines 52-54 list the bucket and
return early when `Contents` is absent; lines 56-58 parse the first event
record's body; line 61 writes the PROCESSING status; the rest is `runRest`. -/
def lambda_handler (env : Env) : Result :=
  if env.listing = [] then
    { ret := Except.ok (Ret.msg "No files found in the bucket."),
      log := [Ev.listBucket], tmp := [] }
  else
    match env.records with
    | [] =>
        { ret := Except.error Err.indexOutOfRange, log := [Ev.listBucket], tmp := [] }
    | r :: _ =>
      runRest env.download env.buildIndex env.uploadErr env.listing
        r.user r.documentid
        [Ev.listBucket, Ev.parseBody r,
         Ev.setStatus r.user r.documentid "PROCESSING"]

/-- One DynamoDB item: an attribute map (attribute name to value). -/
abbrev Item := List (String × String)

/-- The document table: items keyed by `(userid, documentid)`. -/
abbrev DocTable := List ((String × String) × Item)

/-- DynamoDB `SET attr = :v` inside an item: replace the attribute if
present, otherwise add it. -/
def setAttr : Item → String → String → Item
  | [], k, v => [(k, v)]
  | (k0, v0) :: rest, k, v =>
    if k0 = k then (k, v) :: rest else (k0, v0) :: setAttr rest k v

/-- DynamoDB `UpdateItem` with `UpdateExpression "SET docstatus = :docstatus"`
(main.py lines 34-38). Per the DynamoDB contract, UpdateItem edits an
existing item's attributes or adds a new item to the table if none exists
for the key; with no ConditionExpression it is an unconditional upsert. -/
def update_item : DocTable → String → String → String → DocTable
  | [], u, d, s => [((u, d), [("docstatus", s)])]
  | ((u0, d0), item) :: rest, u, d, s =>
    if u0 = u ∧ d0 = d then ((u0, d0), setAttr item "docstatus" s) :: rest
    else ((u0, d0), item) :: update_item rest u d s

/-- `set_doc_status(user_id, document_id, status)` (main.py lines 33-38),
with the table passed explicitly instead of held in a module global. -/
def set_doc_status (table : DocTable) (user_id document_id status : String) :
    DocTable :=
  update_item table user_id document_id status

/-- Lookup of the item stored for `(userid, documentid)`. -/
def lookupDoc : DocTable → String → String → Option Item
  | [], _, _ => Option.none
  | ((u0, d0), item) :: rest, u, d =>
    if u0 = u ∧ d0 = d then some item else lookupDoc rest u d

/-- The `(user, doc, status)` triples of the status writes in a log, in
order. -/
def statusWrites (log : List Ev) : List (String × String × String) :=
  log.filterMap fun e =>
    match e with
    | Ev.setStatus u d s => some (u, d, s)
    | _ => Option.none

/-- The S3 keys fetched by `s3.download_file` in a log, in order. -/
def downloadedKeys (log : List Ev) : List String :=
  log.filterMap fun e =>
    match e with
    | Ev.download k _ => some k
    | _ => Option.none

/-- The S3 keys written by `s3.upload_file` in a log, in order. -/
def uploadedKeys (log : List Ev) : List String :=
  log.filterMap fun e =>
    match e with
    | Ev.upload k _ => some k
    | _ => Option.none

def applyStatusWrites (t : DocTable) (ws : List (String × String × String)) : DocTable :=
  ws.foldl (fun t w => set_doc_status t w.1 w.2.1 w.2.2) t

def envRateLimited : Env :=
  { listing := ["u1/a.pdf"],
    records := [⟨"d1", "u1"⟩],
    download := fun _ => Except.ok "PDFBYTES",
    buildIndex := fun _ => Except.error Err.rateLimited,
    uploadErr := fun _ => Option.none }

def envHappy : Env :=
  { listing := ["u1/a.pdf"],
    records := [⟨"d1", "u1"⟩],
    download := fun _ => Except.ok "PDFBYTES",
    buildIndex := fun _ => Except.ok ⟨"FAISSGEOM", "PKLMETA"⟩,
    uploadErr := fun _ => Option.none }

def envEmptyC5 : Env :=
  { listing := [],
    records := [⟨"d1", "u1"⟩],
    download := fun _ => Except.ok "PDFBYTES",
    buildIndex := fun _ => Except.ok ⟨"", ""⟩,
    uploadErr := fun _ => Option.none }

def envEmptyC9 : Env :=
  { listing := [],
    records := [⟨"d9", "u9"⟩],
    download := fun _ => Except.ok "PDFBYTES",
    buildIndex := fun _ => Except.ok ⟨"", ""⟩,
    uploadErr := fun _ => Option.none }

def envCross : Env :=
  { listing := ["u1/a.pdf", "u2/b.pdf"],
    records := [⟨"d1", "u1"⟩],
    download := fun k => if k = "u1/a.pdf" then Except.ok "AAA" else Except.ok "BBB",
    buildIndex := fun _ => Except.ok ⟨"FAISSGEOM", "PKLMETA"⟩,
    uploadErr := fun _ => Option.none }

def envPklFails : Env :=
  { listing := ["u1/a.pdf"],
    records := [⟨"d1", "u1"⟩],
    download := fun _ => Except.ok "PDFBYTES",
    buildIndex := fun _ => Except.ok ⟨"FAISSGEOM", "PKLMETA"⟩,
    uploadErr := fun k => if k = "u1/index.pkl" then some Err.storeUnavailable
                          else Option.none }

def envC6 : Env :=
  { listing := ["u1/a.pdf"],
    records := [⟨"d1", "u1"⟩],
    download := fun _ => Except.ok "PDFBYTES",
    buildIndex := fun _ => Except.ok ⟨"FAISSGEOM", "PKLMETA"⟩,
    uploadErr := fun _ => Option.none }

def tblC7 : DocTable := [(("u1", "d1"), [("docstatus", "CREATED")])]

def envClash (k1 k2 c1 c2 : String) (r : EventRecord) : Env :=
  { listing := [k1, k2],
    records := [r],
    download := fun k => if k = k1 then Except.ok c1 else Except.ok c2,
    buildIndex := fun _ => Except.ok ⟨"FAISSGEOM", "PKLMETA"⟩,
    uploadErr := fun _ => Option.none }

def envC10 : Env :=
  { listing := ["u1/a.pdf"],
    records := [],
    download := fun _ => Except.ok "PDFBYTES",
    buildIndex := fun _ => Except.ok ⟨"FAISSGEOM", "PKLMETA"⟩,
    uploadErr := fun _ => Option.none }

theorem statusWrites_append (l1 l2 : List Ev) :
    statusWrites (l1 ++ l2) = statusWrites l1 ++ statusWrites l2 :=
  List.filterMap_append l1 l2 _

theorem downloadedKeys_append (l1 l2 : List Ev) :
    downloadedKeys (l1 ++ l2) = downloadedKeys l1 ++ downloadedKeys l2 :=
  List.filterMap_append l1 l2 _

theorem uploadedKeys_append (l1 l2 : List Ev) :
    uploadedKeys (l1 ++ l2) = uploadedKeys l1 ++ uploadedKeys l2 :=
  List.filterMap_append l1 l2 _

@[simp] theorem statusWrites_nil : statusWrites [] = [] := rfl

@[simp] theorem statusWrites_cons_listBucket (l : List Ev) :
    statusWrites (Ev.listBucket :: l) = statusWrites l := rfl

@[simp] theorem statusWrites_cons_parseBody (r : EventRecord) (l : List Ev) :
    statusWrites (Ev.parseBody r :: l) = statusWrites l := rfl

@[simp] theorem statusWrites_cons_setStatus (u d s : String) (l : List Ev) :
    statusWrites (Ev.setStatus u d s :: l) = (u, d, s) :: statusWrites l := rfl

@[simp] theorem statusWrites_cons_download (k p : String) (l : List Ev) :
    statusWrites (Ev.download k p :: l) = statusWrites l := rfl

@[simp] theorem statusWrites_cons_loadAndBuild (cs : List String) (l : List Ev) :
    statusWrites (Ev.loadAndBuild cs :: l) = statusWrites l := rfl

@[simp] theorem statusWrites_cons_upload (k b : String) (l : List Ev) :
    statusWrites (Ev.upload k b :: l) = statusWrites l := rfl

@[simp] theorem uploadedKeys_nil : uploadedKeys [] = [] := rfl

@[simp] theorem uploadedKeys_cons_listBucket (l : List Ev) :
    uploadedKeys (Ev.listBucket :: l) = uploadedKeys l := rfl

@[simp] theorem uploadedKeys_cons_parseBody (r : EventRecord) (l : List Ev) :
    uploadedKeys (Ev.parseBody r :: l) = uploadedKeys l := rfl

@[simp] theorem uploadedKeys_cons_setStatus (u d s : String) (l : List Ev) :
    uploadedKeys (Ev.setStatus u d s :: l) = uploadedKeys l := rfl

@[simp] theorem uploadedKeys_cons_download (k p : String) (l : List Ev) :
    uploadedKeys (Ev.download k p :: l) = uploadedKeys l := rfl

@[simp] theorem uploadedKeys_cons_loadAndBuild (cs : List String) (l : List Ev) :
    uploadedKeys (Ev.loadAndBuild cs :: l) = uploadedKeys l := rfl

@[simp] theorem uploadedKeys_cons_upload (k b : String) (l : List Ev) :
    uploadedKeys (Ev.upload k b :: l) = k :: uploadedKeys l := rfl

@[simp] theorem downloadedKeys_nil : downloadedKeys [] = [] := rfl

@[simp] theorem downloadedKeys_cons_listBucket (l : List Ev) :
    downloadedKeys (Ev.listBucket :: l) = downloadedKeys l := rfl

@[simp] theorem downloadedKeys_cons_parseBody (r : EventRecord) (l : List Ev) :
    downloadedKeys (Ev.parseBody r :: l) = downloadedKeys l := rfl

@[simp] theorem downloadedKeys_cons_setStatus (u d s : String) (l : List Ev) :
    downloadedKeys (Ev.setStatus u d s :: l) = downloadedKeys l := rfl

@[simp] theorem downloadedKeys_cons_download (k p : String) (l : List Ev) :
    downloadedKeys (Ev.download k p :: l) = k :: downloadedKeys l := rfl

@[simp] theorem downloadedKeys_cons_loadAndBuild (cs : List String) (l : List Ev) :
    downloadedKeys (Ev.loadAndBuild cs :: l) = downloadedKeys l := rfl

@[simp] theorem downloadedKeys_cons_upload (k b : String) (l : List Ev) :
    downloadedKeys (Ev.upload k b :: l) = downloadedKeys l := rfl

theorem downloadAll_log (dl : String → Except Err String) :
    ∀ (keys : List String) (st : LoopState),
      ∃ ds, (downloadAll dl keys st).1.log = st.log ++ ds ∧
        ∀ e ∈ ds, ∃ k p, e = Ev.download k p := by
  intro keys
  induction keys with
  | nil =>
    intro st
    exact ⟨[], by simp [downloadAll], by simp⟩
  | cons key rest ih =>
    intro st
    cases hk : isPdfKey key with
    | false =>
      rcases ih st with ⟨ds, hlog, hds⟩
      refine ⟨ds, ?_, hds⟩
      simpa [downloadAll, hk] using hlog
    | true =>
      cases hdk : dl key with
      | error e =>
        exact ⟨[], by simp [downloadAll, hk, hdk], by simp⟩
      | ok bytes =>
        rcases ih { tmp := ("/tmp/" ++ basename key, bytes) :: st.tmp,
                    loaderPaths := st.loaderPaths ++ ["/tmp/" ++ basename key],
                    log := st.log ++ [Ev.download key ("/tmp/" ++ basename key)] }
          with ⟨ds, hlog, hds⟩
        refine ⟨Ev.download key ("/tmp/" ++ basename key) :: ds, ?_, ?_⟩
        · simp only [downloadAll, hk, hdk]
          simp only [List.append_assoc, List.singleton_append] at hlog
          simpa using hlog
        · intro e he
          rcases List.mem_cons.mp he with rfl | he
          · exact ⟨key, "/tmp/" ++ basename key, rfl⟩
          · exact hds e he

theorem downloadAll_filterMap {β : Type} (f : Ev → Option β)
    (hf : ∀ k p, f (Ev.download k p) = Option.none)
    (dl : String → Except Err String) (keys : List String) (st : LoopState) :
    List.filterMap f (downloadAll dl keys st).1.log = List.filterMap f st.log := by
  rcases downloadAll_log dl keys st with ⟨ds, hlog, hds⟩
  rw [hlog, List.filterMap_append]
  have hnil : List.filterMap f ds = [] :=
    List.filterMap_eq_nil_iff.mpr
      (fun e he => by rcases hds e he with ⟨k, p, rfl⟩; exact hf k p)
  simp [hnil]

theorem downloadAll_statusWrites (dl : String → Except Err String)
    (keys : List String) (st : LoopState) :
    statusWrites (downloadAll dl keys st).1.log = statusWrites st.log :=
  downloadAll_filterMap _ (fun _ _ => rfl) dl keys st

theorem downloadAll_uploadedKeys (dl : String → Except Err String)
    (keys : List String) (st : LoopState) :
    uploadedKeys (downloadAll dl keys st).1.log = uploadedKeys st.log :=
  downloadAll_filterMap _ (fun _ _ => rfl) dl keys st

theorem runRest_statusWrites (dl : String → Except Err String)
    (bi : List String → Except Err Artifact) (ue : String → Option Err)
    (listing : List String) (u d : String) (log1 : List Ev) :
    statusWrites (runRest dl bi ue listing u d log1).log =
      statusWrites log1 ++
        (if (runRest dl bi ue listing u d log1).ret = Except.ok Ret.done
         then [(u, d, "READY")] else []) := by
  unfold runRest
  rcases hda : downloadAll dl listing ⟨[], [], log1⟩ with ⟨st, e?⟩
  have hsw : statusWrites st.log = statusWrites log1 := by
    have h := downloadAll_statusWrites dl listing ⟨[], [], log1⟩
    rw [hda] at h
    exact h
  cases e? with
  | some e => simp [hsw]
  | none =>
    rcases hbi : bi (st.loaderPaths.map fun p => (lookupStr st.tmp p).getD "")
      with e | art
    · simp [hbi, statusWrites_append, hsw]
    · rcases hue1 : ue (u ++ "/index.faiss") with _ | e
      · rcases hue2 : ue (u ++ "/index.pkl") with _ | e
        · simp [hbi, hue1, hue2, statusWrites_append, hsw]
        · simp [hbi, hue1, hue2, statusWrites_append, hsw]
      · simp [hbi, hue1, statusWrites_append, hsw]

theorem downloadAll_success (dl : String → Except Err String) :
    ∀ (keys : List String) (st : LoopState),
      (∀ k ∈ keys, isPdfKey k = true → ∃ c, dl k = Except.ok c) →
      (downloadAll dl keys st).2 = Option.none ∧
      downloadedKeys (downloadAll dl keys st).1.log =
        downloadedKeys st.log ++ keys.filter (fun k => isPdfKey k) := by
  intro keys
  induction keys with
  | nil => intro st _h; simp [downloadAll]
  | cons key rest ih =>
    intro st h
    cases hk : isPdfKey key with
    | false =>
      have hrest := ih st (fun k hk2 => h k (List.mem_cons_of_mem _ hk2))
      simpa [downloadAll, hk, List.filter_cons] using hrest
    | true =>
      rcases h key (List.mem_cons_self _ _) hk with ⟨c, hc⟩
      rcases ih { tmp := ("/tmp/" ++ basename key, c) :: st.tmp,
                  loaderPaths := st.loaderPaths ++ ["/tmp/" ++ basename key],
                  log := st.log ++ [Ev.download key ("/tmp/" ++ basename key)] }
          (fun k hk2 => h k (List.mem_cons_of_mem _ hk2)) with ⟨h1, h2⟩
      constructor
      · simpa [downloadAll, hk, hc] using h1
      · simp only [downloadAll, hk, hc, if_true]
        rw [h2]
        simp [downloadedKeys_append, List.filter_cons, hk]

theorem runRest_log (dl : String → Except Err String)
    (bi : List String → Except Err Artifact) (ue : String → Option Err)
    (listing : List String) (u d : String) (log1 : List Ev) :
    ∃ tail, (runRest dl bi ue listing u d log1).log = log1 ++ tail := by
  unfold runRest
  rcases hda : downloadAll dl listing ⟨[], [], log1⟩ with ⟨st, e?⟩
  have hst : ∃ ds, st.log = log1 ++ ds := by
    rcases downloadAll_log dl listing ⟨[], [], log1⟩ with ⟨ds, hlog, _⟩
    rw [hda] at hlog
    exact ⟨ds, hlog⟩
  rcases hst with ⟨ds, hds⟩
  cases e? with
  | some e => exact ⟨ds, by simpa using hds⟩
  | none =>
    rcases hbi : bi (st.loaderPaths.map fun p => (lookupStr st.tmp p).getD "")
      with e | art
    · exact ⟨ds ++ [Ev.loadAndBuild (st.loaderPaths.map fun p => (lookupStr st.tmp p).getD "")],
        by simp [hbi, hds]⟩
    · rcases hue1 : ue (u ++ "/index.faiss") with _ | e
      · rcases hue2 : ue (u ++ "/index.pkl") with _ | e
        · refine ⟨ds ++ [Ev.loadAndBuild (st.loaderPaths.map fun p => (lookupStr st.tmp p).getD ""),
            Ev.upload (u ++ "/index.faiss") art.faiss,
            Ev.upload (u ++ "/index.pkl") art.pkl,
            Ev.setStatus u d "READY"], ?_⟩
          simp [hbi, hue1, hue2, hds]
        · refine ⟨ds ++ [Ev.loadAndBuild (st.loaderPaths.map fun p => (lookupStr st.tmp p).getD ""),
            Ev.upload (u ++ "/index.faiss") art.faiss], ?_⟩
          simp [hbi, hue1, hue2, hds]
      · refine ⟨ds ++ [Ev.loadAndBuild (st.loaderPaths.map fun p => (lookupStr st.tmp p).getD "")], ?_⟩
        simp [hbi, hue1, hds]

theorem runRest_uploadedKeys (dl : String → Except Err String)
    (bi : List String → Except Err Artifact) (ue : String → Option Err)
    (listing : List String) (u d : String) (log1 : List Ev)
    (h1 : uploadedKeys log1 = []) :
    uploadedKeys (runRest dl bi ue listing u d log1).log = [] ∨
    uploadedKeys (runRest dl bi ue listing u d log1).log = [u ++ "/index.faiss"] ∨
    ((runRest dl bi ue listing u d log1).ret = Except.ok Ret.done ∧
     uploadedKeys (runRest dl bi ue listing u d log1).log =
       [u ++ "/index.faiss", u ++ "/index.pkl"]) := by
  unfold runRest
  rcases hda : downloadAll dl listing ⟨[], [], log1⟩ with ⟨st, e?⟩
  have hup : uploadedKeys st.log = [] := by
    have h := downloadAll_uploadedKeys dl listing ⟨[], [], log1⟩
    rw [hda] at h
    rw [h]
    exact h1
  cases e? with
  | some e => left; simpa using hup
  | none =>
    rcases hbi : bi (st.loaderPaths.map fun p => (lookupStr st.tmp p).getD "")
      with e | art
    · left; simp [hbi, uploadedKeys_append, hup]
    · rcases hue1 : ue (u ++ "/index.faiss") with _ | e
      · rcases hue2 : ue (u ++ "/index.pkl") with _ | e
        · right; right
          refine ⟨by simp [hbi, hue1, hue2], ?_⟩
          simp [hbi, hue1, hue2, uploadedKeys_append, hup]
        · right; left
          simp [hbi, hue1, hue2, uploadedKeys_append, hup]
      · left; simp [hbi, hue1, uploadedKeys_append, hup]

theorem lambda_handler_cons (env : Env) (r : EventRecord) (rest : List EventRecord)
    (hl : env.listing ≠ []) (hr : env.records = r :: rest) :
    lambda_handler env =
      runRest env.download env.buildIndex env.uploadErr env.listing
        r.user r.documentid
        [Ev.listBucket, Ev.parseBody r,
         Ev.setStatus r.user r.documentid "PROCESSING"] := by
  unfold lambda_handler
  rw [if_neg hl, hr]

theorem lambda_handler_empty (env : Env) (h : env.listing = []) :
    lambda_handler env =
      { ret := Except.ok (Ret.msg "No files found in the bucket."),
        log := [Ev.listBucket], tmp := [] } := by
  simp [lambda_handler, h]

theorem lambda_handler_statusWrites (env : Env) (r : EventRecord)
    (rest : List EventRecord) (hl : env.listing ≠ []) (hr : env.records = r :: rest) :
    statusWrites (lambda_handler env).log =
      (r.user, r.documentid, "PROCESSING") ::
        (if (lambda_handler env).ret = Except.ok Ret.done
         then [(r.user, r.documentid, "READY")] else []) := by
  rw [lambda_handler_cons env r rest hl hr]
  have h := runRest_statusWrites env.download env.buildIndex env.uploadErr env.listing
    r.user r.documentid
    [Ev.listBucket, Ev.parseBody r, Ev.setStatus r.user r.documentid "PROCESSING"]
  simpa using h

/-- Claim C1, counterexample: in a run where the Embedder always raises
`RateLimitedError` (the `buildIndex` oracle always errors), the handler
propagates the error and never reaches READY, but it writes no ERROR status
either — the only status write is PROCESSING, refuting "sets the triggering
document's status to ERROR". -/
theorem claim_C1_counterexample :
    (lambda_handler envRateLimited).ret = Except.error Err.rateLimited ∧
    statusWrites (lambda_handler envRateLimited).log = [("u1", "d1", "PROCESSING")] ∧
    ("u1", "d1", "ERROR") ∉ statusWrites (lambda_handler envRateLimited).log := by
  decide

/-- Claim C1 (amended): on every run that propagates an error to its caller,
the handler never sets the status to READY and never to ERROR — every status
write performed by a failing run is PROCESSING, so the document is left in
the PROCESSING state. -/
theorem claim_C1_amended (env : Env) (e : Err)
    (hret : (lambda_handler env).ret = Except.error e) :
    ∀ u d s, (u, d, s) ∈ statusWrites (lambda_handler env).log → s = "PROCESSING" := by
  intro u d s hmem
  by_cases hl : env.listing = []
  · rw [lambda_handler_empty env hl] at hmem
    simp at hmem
  · cases hr : env.records with
    | nil =>
      unfold lambda_handler at hmem
      rw [if_neg hl, hr] at hmem
      simp at hmem
    | cons r rest =>
      rw [lambda_handler_statusWrites env r rest hl hr] at hmem
      rw [if_neg (fun hc => by rw [hret] at hc; exact Except.noConfusion hc)] at hmem
      simp at hmem
      exact hmem.2.2

/-- Claim C1 witness: the amended theorem applied to the rate-limited run. -/
theorem claim_C1_witness :
    (lambda_handler envRateLimited).ret = Except.error Err.rateLimited ∧
    ("u1", "d1", "PROCESSING") ∈ statusWrites (lambda_handler envRateLimited).log ∧
    "PROCESSING" = "PROCESSING" :=
  ⟨by decide, by decide,
   claim_C1_amended envRateLimited Err.rateLimited (by decide) "u1" "d1" "PROCESSING"
     (by decide)⟩

/-- Claim C4: on every successful run (Python return `None`), the status
writes are exactly PROCESSING then READY for the triggering document, so a
document starting at CREATED visits PROCESSING and terminates at READY with
no other status values. -/
theorem claim_C4 (env : Env) (r : EventRecord) (rest : List EventRecord)
    (hr : env.records = r :: rest)
    (hret : (lambda_handler env).ret = Except.ok Ret.done) :
    statusWrites (lambda_handler env).log =
      [(r.user, r.documentid, "PROCESSING"), (r.user, r.documentid, "READY")] ∧
    applyStatusWrites [((r.user, r.documentid), [("docstatus", "CREATED")])]
        (statusWrites (lambda_handler env).log) =
      [((r.user, r.documentid), [("docstatus", "READY")])] := by
  by_cases hl : env.listing = []
  · rw [lambda_handler_empty env hl] at hret
    simp at hret
  · have h := lambda_handler_statusWrites env r rest hl hr
    rw [if_pos hret] at h
    refine ⟨h, ?_⟩
    rw [h]
    simp [applyStatusWrites, set_doc_status, update_item, setAttr]

/-- Claim C4 witness: the theorem applied to a concrete successful run. -/
theorem claim_C4_witness :
    envHappy.records = EventRecord.mk "d1" "u1" :: [] ∧
    (lambda_handler envHappy).ret = Except.ok Ret.done ∧
    statusWrites (lambda_handler envHappy).log =
      [("u1", "d1", "PROCESSING"), ("u1", "d1", "READY")] :=
  ⟨rfl, by decide,
   (claim_C4 envHappy ⟨"d1", "u1"⟩ [] rfl (by decide)).1⟩

/-- Claim C5, counterexample: with an empty listing (a valid, non-error
result) the handler returns the early string and writes no status at all —
in particular the run does not complete with status READY, refuting the
claim even though all downstream oracles would succeed. -/
theorem claim_C5_counterexample :
    (lambda_handler envEmptyC5).ret =
      Except.ok (Ret.msg "No files found in the bucket.") ∧
    statusWrites (lambda_handler envEmptyC5).log = [] ∧
    ("u1", "d1", "READY") ∉ statusWrites (lambda_handler envEmptyC5).log := by
  decide

/-- Claim C5 (amended): for an empty bucket listing the handler does not
build an empty artifact; it returns "No files found in the bucket."
immediately and performs no status write, so the run never reaches READY. -/
theorem claim_C5_amended (env : Env) (h : env.listing = []) :
    (lambda_handler env).ret = Except.ok (Ret.msg "No files found in the bucket.") ∧
    statusWrites (lambda_handler env).log = [] := by
  rw [lambda_handler_empty env h]
  exact ⟨rfl, rfl⟩

/-- Claim C5 witness: the amended theorem applied to the empty-bucket run. -/
theorem claim_C5_witness :
    envEmptyC5.listing = [] ∧
    (lambda_handler envEmptyC5).ret =
      Except.ok (Ret.msg "No files found in the bucket.") ∧
    statusWrites (lambda_handler envEmptyC5).log = [] :=
  ⟨rfl, (claim_C5_amended envEmptyC5 rfl).1, (claim_C5_amended envEmptyC5 rfl).2⟩

/-- Claim C9: when the bucket listing is empty the handler returns the
string result immediately with no other side effect — the event body is
never parsed, no status value is written, and no artifact is uploaded. -/
theorem claim_C9 (env : Env) (h : env.listing = []) :
    lambda_handler env =
      { ret := Except.ok (Ret.msg "No files found in the bucket."),
        log := [Ev.listBucket], tmp := [] } ∧
    statusWrites (lambda_handler env).log = [] ∧
    uploadedKeys (lambda_handler env).log = [] ∧
    ∀ r, Ev.parseBody r ∉ (lambda_handler env).log := by
  have he := lambda_handler_empty env h
  refine ⟨he, ?_, ?_, ?_⟩ <;> rw [he] <;> simp

/-- Claim C9 witness: the theorem applied to an empty-bucket run. -/
theorem claim_C9_witness :
    envEmptyC9.listing = [] ∧
    lambda_handler envEmptyC9 =
      { ret := Except.ok (Ret.msg "No files found in the bucket."),
        log := [Ev.listBucket], tmp := [] } ∧
    Ev.parseBody ⟨"d9", "u9"⟩ ∉ (lambda_handler envEmptyC9).log :=
  ⟨rfl, (claim_C9 envEmptyC9 rfl).1, (claim_C9 envEmptyC9 rfl).2.2.2 ⟨"d9", "u9"⟩⟩

theorem runRest_downloadedKeys (dl : String → Except Err String)
    (bi : List String → Except Err Artifact) (ue : String → Option Err)
    (listing : List String) (u d : String) (log1 : List Ev)
    (hdl : ∀ k ∈ listing, isPdfKey k = true → ∃ c, dl k = Except.ok c) :
    downloadedKeys (runRest dl bi ue listing u d log1).log =
      downloadedKeys log1 ++ listing.filter (fun k => isPdfKey k) := by
  unfold runRest
  rcases hda : downloadAll dl listing ⟨[], [], log1⟩ with ⟨st, e?⟩
  have hsucc := downloadAll_success dl listing ⟨[], [], log1⟩ hdl
  rw [hda] at hsucc
  rcases hsucc with ⟨hn, hk⟩
  cases e? with
  | some e => simp at hn
  | none =>
    simp only at hk
    rcases hbi : bi (st.loaderPaths.map fun p => (lookupStr st.tmp p).getD "")
      with e | art
    · simp [hbi, downloadedKeys_append, hk]
    · rcases hue1 : ue (u ++ "/index.faiss") with _ | e
      · rcases hue2 : ue (u ++ "/index.pkl") with _ | e
        · simp [hbi, hue1, hue2, downloadedKeys_append, hk]
        · simp [hbi, hue1, hue2, downloadedKeys_append, hk]
      · simp [hbi, hue1, downloadedKeys_append, hk]

/-- Claim C2, counterexample: with owner u1 triggering and an object
`u2/b.pdf` belonging to another owner in the bucket, the run fetches u2's
object and feeds its content to the index builder, refuting "exactly the set
of objects available for that owner". -/
theorem claim_C2_counterexample :
    "u2/b.pdf" ∈ downloadedKeys (lambda_handler envCross).log ∧
    Ev.loadAndBuild ["AAA", "BBB"] ∈ (lambda_handler envCross).log ∧
    (lambda_handler envCross).ret = Except.ok Ret.done := by
  decide

/-- Claim C2 (amended): the handler enumerates and fetches every `.pdf`
object of the entire shared bucket regardless of owner — when all downloads
succeed, the fetched keys are exactly the bucket listing filtered to keys
ending in `.pdf` (case-insensitively), for any triggering owner. -/
theorem claim_C2_amended (env : Env) (r : EventRecord) (rest : List EventRecord)
    (hl : env.listing ≠ []) (hr : env.records = r :: rest)
    (hdl : ∀ k ∈ env.listing, isPdfKey k = true → ∃ c, env.download k = Except.ok c) :
    downloadedKeys (lambda_handler env).log =
      env.listing.filter (fun k => isPdfKey k) := by
  rw [lambda_handler_cons env r rest hl hr]
  have h := runRest_downloadedKeys env.download env.buildIndex env.uploadErr env.listing
    r.user r.documentid
    [Ev.listBucket, Ev.parseBody r, Ev.setStatus r.user r.documentid "PROCESSING"] hdl
  simpa using h

/-- Claim C2 witness: the amended theorem applied to the two-owner bucket. -/
theorem claim_C2_witness :
    envCross.listing ≠ [] ∧
    downloadedKeys (lambda_handler envCross).log =
      envCross.listing.filter (fun k => isPdfKey k) :=
  ⟨by decide,
   claim_C2_amended envCross ⟨"d1", "u1"⟩ [] (by decide) rfl
     (fun k _ _ => by
       by_cases h : k = "u1/a.pdf" <;> simp [envCross, h])⟩

/-- Claim C3, counterexample: in a run where the second upload
(`<owner>/index.pkl`) raises, the run fails yet the geometry part
`u1/index.faiss` has already been written under its well-known name without
its metadata part — a reachable partial artifact. -/
theorem claim_C3_counterexample :
    (lambda_handler envPklFails).ret = Except.error Err.storeUnavailable ∧
    uploadedKeys (lambda_handler envPklFails).log = ["u1/index.faiss"] := by
  decide

/-- Claim C3 (amended): the two artifact parts are uploaded sequentially with
no atomicity: every run ends with either no part uploaded, or only the
geometry part `<owner>/index.faiss` uploaded (a failing run can leave this
partial state), or — exactly on success — both parts uploaded in order. -/
theorem claim_C3_amended (env : Env) (r : EventRecord) (rest : List EventRecord)
    (hr : env.records = r :: rest) :
    uploadedKeys (lambda_handler env).log = [] ∨
    uploadedKeys (lambda_handler env).log = [r.user ++ "/index.faiss"] ∨
    ((lambda_handler env).ret = Except.ok Ret.done ∧
     uploadedKeys (lambda_handler env).log =
       [r.user ++ "/index.faiss", r.user ++ "/index.pkl"]) := by
  by_cases hl : env.listing = []
  · left
    rw [lambda_handler_empty env hl]
    simp
  · rw [lambda_handler_cons env r rest hl hr]
    exact runRest_uploadedKeys _ _ _ _ _ _ _ (by simp)

/-- Claim C3 witness: the amended theorem applied to the run whose pkl upload
fails. -/
theorem claim_C3_witness :
    uploadedKeys (lambda_handler envPklFails).log = [] ∨
    uploadedKeys (lambda_handler envPklFails).log = ["u1" ++ "/index.faiss"] ∨
    ((lambda_handler envPklFails).ret = Except.ok Ret.done ∧
     uploadedKeys (lambda_handler envPklFails).log =
       ["u1" ++ "/index.faiss", "u1" ++ "/index.pkl"]) :=
  claim_C3_amended envPklFails ⟨"d1", "u1"⟩ [] rfl

/-- Claim C6, counterexample: in a concrete run the first logged effect is
the bucket enumeration, which precedes the PROCESSING status write — the
source-object listing happens while the status is still CREATED, refuting
"sets PROCESSING before it enumerates". -/
theorem claim_C6_counterexample :
    (lambda_handler envC6).log.take 3 =
      [Ev.listBucket, Ev.parseBody ⟨"d1", "u1"⟩,
       Ev.setStatus "u1" "d1" "PROCESSING"] ∧
    (lambda_handler envC6).log.head? = some Ev.listBucket := by
  decide

/-- Claim C6 (amended): the handler enumerates the bucket first, while the
status is still CREATED; the PROCESSING write follows the listing and the
body parse, and every object fetch (download) happens after the PROCESSING
write. -/
theorem claim_C6_amended (env : Env) (r : EventRecord) (rest : List EventRecord)
    (hl : env.listing ≠ []) (hr : env.records = r :: rest) :
    ∃ tail,
      (lambda_handler env).log =
        Ev.listBucket :: Ev.parseBody r ::
          Ev.setStatus r.user r.documentid "PROCESSING" :: tail ∧
      ∀ k p, Ev.download k p ∈ (lambda_handler env).log → Ev.download k p ∈ tail := by
  rw [lambda_handler_cons env r rest hl hr]
  rcases runRest_log env.download env.buildIndex env.uploadErr env.listing
    r.user r.documentid
    [Ev.listBucket, Ev.parseBody r, Ev.setStatus r.user r.documentid "PROCESSING"]
    with ⟨tail, htail⟩
  refine ⟨tail, by simpa using htail, ?_⟩
  intro k p hmem
  rw [htail] at hmem
  simpa using hmem

/-- Claim C6 witness: the amended theorem applied to a concrete run. -/
theorem claim_C6_witness :
    envC6.listing ≠ [] ∧
    ∃ tail,
      (lambda_handler envC6).log =
        Ev.listBucket :: Ev.parseBody ⟨"d1", "u1"⟩ ::
          Ev.setStatus "u1" "d1" "PROCESSING" :: tail ∧
      ∀ k p, Ev.download k p ∈ (lambda_handler envC6).log → Ev.download k p ∈ tail :=
  ⟨by decide, claim_C6_amended envC6 ⟨"d1", "u1"⟩ [] (by decide) rfl⟩

theorem lookupStr_setAttr (item : Item) (k v : String) :
    lookupStr (setAttr item k v) k = some v := by
  induction item with
  | nil => simp [setAttr, lookupStr]
  | cons kv rest ih =>
    rcases kv with ⟨k0, v0⟩
    by_cases h : k0 = k
    · simp [setAttr, h, lookupStr]
    · simp [setAttr, h, lookupStr, ih]

/-- Claim C7, counterexample: on a table with no record for ("u1","d1"),
`set_doc_status` does not fail with NotFoundError — DynamoDB UpdateItem
upserts, so the call returns a table in which the record now exists with the
written status. -/
theorem claim_C7_counterexample :
    lookupDoc ([] : DocTable) "u1" "d1" = Option.none ∧
    lookupDoc (set_doc_status [] "u1" "d1" "READY") "u1" "d1" =
      some [("docstatus", "READY")] := by
  decide

/-- Claim C7 (amended): `set_doc_status` always leaves the identified record
present with `docstatus` equal to the written value — creating the record if
it was absent (upsert, no NotFoundError) and unconditionally overwriting its
status if present — and leaves every other record unchanged. -/
theorem claim_C7_amended (t : DocTable) (u d s : String) :
    (∃ item, lookupDoc (set_doc_status t u d s) u d = some item ∧
       lookupStr item "docstatus" = some s) ∧
    ∀ u' d', ¬(u' = u ∧ d' = d) →
      lookupDoc (set_doc_status t u d s) u' d' = lookupDoc t u' d' := by
  constructor
  · induction t with
    | nil =>
      refine ⟨[("docstatus", s)], ?_, ?_⟩
      · simp [set_doc_status, update_item, lookupDoc]
      · simp [lookupStr]
    | cons entry rest ih =>
      rcases entry with ⟨⟨u0, d0⟩, item⟩
      by_cases h : u0 = u ∧ d0 = d
      · refine ⟨setAttr item "docstatus" s, ?_, lookupStr_setAttr item _ s⟩
        simp [set_doc_status, update_item, h, lookupDoc]
      · rcases ih with ⟨item2, h1, h2⟩
        refine ⟨item2, ?_, h2⟩
        simpa [set_doc_status, update_item, h, lookupDoc] using h1
  · intro u' d' hne
    induction t with
    | nil =>
      simp only [set_doc_status, update_item, lookupDoc]
      rw [if_neg (fun hc => hne ⟨hc.1.symm, hc.2.symm⟩)]
    | cons entry rest ih =>
      rcases entry with ⟨⟨u0, d0⟩, item⟩
      by_cases h : u0 = u ∧ d0 = d
      · by_cases h2 : u0 = u' ∧ d0 = d'
        · exact absurd ⟨h2.1 ▸ h.1, h2.2 ▸ h.2⟩ hne
        · simp only [set_doc_status, update_item, lookupDoc, h, h2, if_true, if_false]
          rw [if_neg (fun hc => hne ⟨hc.1.symm, hc.2.symm⟩),
              if_neg (fun hc => hne ⟨hc.1.symm, hc.2.symm⟩)]
      · by_cases h2 : u0 = u' ∧ d0 = d'
        · simp only [set_doc_status, update_item, lookupDoc, h, h2, if_true, if_false]
          rw [if_neg hne]
          simp [lookupDoc]
        · simpa [set_doc_status, update_item, lookupDoc, h, h2] using ih

/-- Claim C7 witness: the amended theorem applied to a one-record table. -/
theorem claim_C7_witness :
    (∃ item, lookupDoc (set_doc_status tblC7 "u1" "d1" "PROCESSING") "u1" "d1" =
        some item ∧ lookupStr item "docstatus" = some "PROCESSING") ∧
    lookupDoc (set_doc_status tblC7 "u1" "d1" "PROCESSING") "u2" "d2" =
      lookupDoc tblC7 "u2" "d2" :=
  ⟨(claim_C7_amended tblC7 "u1" "d1" "PROCESSING").1,
   (claim_C7_amended tblC7 "u1" "d1" "PROCESSING").2 "u2" "d2" (by decide)⟩

theorem downloadAll_pair (dl : String → Except Err String) (k1 k2 c1 c2 : String)
    (st : LoopState) (h1 : isPdfKey k1 = true) (h2 : isPdfKey k2 = true)
    (hd1 : dl k1 = Except.ok c1) (hd2 : dl k2 = Except.ok c2) :
    downloadAll dl [k1, k2] st =
      ({ tmp := ("/tmp/" ++ basename k2, c2) :: ("/tmp/" ++ basename k1, c1) :: st.tmp,
         loaderPaths := st.loaderPaths ++ ["/tmp/" ++ basename k1, "/tmp/" ++ basename k2],
         log := st.log ++ [Ev.download k1 ("/tmp/" ++ basename k1),
                           Ev.download k2 ("/tmp/" ++ basename k2)] },
       Option.none) := by
  simp [downloadAll, h1, h2, hd1, hd2]

/-- Claim C8: for two listed keys with equal final path components, both are
staged to the same `/tmp` path before `from_loaders` parses anything, so
both loaders parse the later-listed object's bytes: the contents handed to
the index builder are `[c2, c2]` and the earlier object's content `c1` is
absent from the built index whenever it differs from `c2`. -/
theorem claim_C8 (k1 k2 c1 c2 : String) (r : EventRecord)
    (h1 : isPdfKey k1 = true) (h2 : isPdfKey k2 = true)
    (hb : basename k1 = basename k2) (hne : k1 ≠ k2) :
    (lambda_handler (envClash k1 k2 c1 c2 r)).log =
      [Ev.listBucket, Ev.parseBody r,
       Ev.setStatus r.user r.documentid "PROCESSING",
       Ev.download k1 ("/tmp/" ++ basename k1),
       Ev.download k2 ("/tmp/" ++ basename k1),
       Ev.loadAndBuild [c2, c2],
       Ev.upload (r.user ++ "/index.faiss") "FAISSGEOM",
       Ev.upload (r.user ++ "/index.pkl") "PKLMETA",
       Ev.setStatus r.user r.documentid "READY"] ∧
    ∀ cs, Ev.loadAndBuild cs ∈ (lambda_handler (envClash k1 k2 c1 c2 r)).log →
      cs = [c2, c2] := by
  have hd1 : (envClash k1 k2 c1 c2 r).download k1 = Except.ok c1 := by
    simp [envClash]
  have hd2 : (envClash k1 k2 c1 c2 r).download k2 = Except.ok c2 := by
    simp only [envClash]
    rw [if_neg (Ne.symm hne)]
  have hlog : (lambda_handler (envClash k1 k2 c1 c2 r)).log =
      [Ev.listBucket, Ev.parseBody r,
       Ev.setStatus r.user r.documentid "PROCESSING",
       Ev.download k1 ("/tmp/" ++ basename k1),
       Ev.download k2 ("/tmp/" ++ basename k1),
       Ev.loadAndBuild [c2, c2],
       Ev.upload (r.user ++ "/index.faiss") "FAISSGEOM",
       Ev.upload (r.user ++ "/index.pkl") "PKLMETA",
       Ev.setStatus r.user r.documentid "READY"] := by
    rw [lambda_handler_cons (envClash k1 k2 c1 c2 r) r [] (by simp [envClash]) rfl]
    unfold runRest
    rw [show (envClash k1 k2 c1 c2 r).listing = [k1, k2] from rfl]
    rw [downloadAll_pair (envClash k1 k2 c1 c2 r).download k1 k2 c1 c2 _ h1 h2 hd1 hd2]
    rw [← hb]
    simp [envClash, lookupStr]
  refine ⟨hlog, ?_⟩
  intro cs hmem
  rw [hlog] at hmem
  simpa using hmem

/-- Claim C8 witness: the theorem applied to `a/doc.pdf` and `b/doc.pdf`
with distinct contents. -/
theorem claim_C8_witness :
    isPdfKey "a/doc.pdf" = true ∧
    basename "a/doc.pdf" = basename "b/doc.pdf" ∧
    Ev.loadAndBuild ["BBB", "BBB"] ∈
      (lambda_handler (envClash "a/doc.pdf" "b/doc.pdf" "AAA" "BBB" ⟨"d1", "u1"⟩)).log :=
  ⟨by decide, by decide, by
    rw [(claim_C8 "a/doc.pdf" "b/doc.pdf" "AAA" "BBB" ⟨"d1", "u1"⟩
      (by decide) (by decide) (by decide) (by decide)).1]
    decide⟩

/-- Claim C10: only the first record of the event batch determines the
(owner, document-id): replacing the remaining records changes nothing about
the run, and every status write mentions the first record's user and
documentid. -/
theorem claim_C10 (env : Env) (r : EventRecord) (rest rest' : List EventRecord) :
    lambda_handler { env with records := r :: rest } =
      lambda_handler { env with records := r :: rest' } ∧
    ∀ u d s,
      (u, d, s) ∈ statusWrites (lambda_handler { env with records := r :: rest }).log →
      u = r.user ∧ d = r.documentid := by
  constructor
  · rfl
  · intro u d s hmem
    by_cases hl : env.listing = []
    · rw [lambda_handler_empty { env with records := r :: rest } hl] at hmem
      simp at hmem
    · rw [lambda_handler_statusWrites { env with records := r :: rest } r rest hl rfl]
        at hmem
      rcases List.mem_cons.mp hmem with heq | hmem2
      · rw [Prod.mk.injEq] at heq
        exact ⟨heq.1, by
          have := heq.2
          rw [Prod.mk.injEq] at this
          exact this.1⟩
      · split at hmem2
        · simp at hmem2
          exact ⟨hmem2.1, hmem2.2.1⟩
        · simp at hmem2

/-- Claim C10 witness: the theorem applied with a two-record batch versus a
one-record batch. -/
theorem claim_C10_witness :
    lambda_handler { envC10 with records := [⟨"d1", "u1"⟩, ⟨"dX", "uX"⟩] } =
      lambda_handler { envC10 with records := [⟨"d1", "u1"⟩] } ∧
    ("u1" = "u1" ∧ "d1" = "d1") :=
  ⟨(claim_C10 envC10 ⟨"d1", "u1"⟩ [⟨"dX", "uX"⟩] []).1,
   (claim_C10 envC10 ⟨"d1", "u1"⟩ [⟨"dX", "uX"⟩] []).2 "u1" "d1" "PROCESSING"
     (by decide)⟩

end ServerlessChatbot
